import Mathlib

set_option autoImplicit false

/-!
Verification of the TFT champion fetch pipeline (`scripts/fetch-templates.py`)
and the meta placeholder writer (`scripts/update-meta.py`).

The Python scripts are shallowly embedded: strings are Lean `String`s,
dictionaries are association lists (`List (String × _)`) whose key order is
irrelevant to every operation modelled here except the explicit `sorted`
call, the filesystem is a partial map from path to file content, and the
network is an oracle record.  Fallible Python code (uncaught exceptions)
is modelled with `Except PyErr`.
-/

/-! ## String comparison (Python `<`/`sorted` on `str`: code-point lexicographic) -/

/-- Lexicographic less-or-equal on character lists by Unicode code point.
This is exactly the order Python uses to compare `str` values, which is what
`sorted(raw_champions.items())` sorts by (keys are pairwise distinct, so the
tuple comparison never reaches the dict values). -/
def listCharLe : List Char → List Char → Bool
  | [], _ => true
  | _ :: _, [] => false
  | a :: as, b :: bs => if a = b then listCharLe as bs else decide (a < b)

/-- Python string less-or-equal. -/
def strLe (s t : String) : Bool := listCharLe s.data t.data

/-! ## Python substring containment (`needle in haystack`) -/

/-- Does `needle` occur as a contiguous sublist of the second argument?
Models Python's `in` operator on strings. -/
def containsSub (needle : List Char) : List Char → Bool
  | [] => needle.isEmpty
  | c :: t => needle.isPrefixOf (c :: t) || containsSub needle t

/-- Python `needle in hay` for strings. -/
def strContains (hay needle : String) : Bool := containsSub needle.data hay.data

/-! ## Character classes and digit-string values -/

/-- Python regex `\w` (restricted to the ASCII range, which covers every
identifier produced by the upstream data source): letters, digits, underscore. -/
def isWordChar (c : Char) : Bool := c.isAlphanum || c = '_'

/-- Numeric value of a decimal digit string, as computed by Python `int` on a
string of digits (leading zeros allowed). -/
def digitsVal (ds : List Char) : Nat :=
  ds.foldl (fun acc c => 10 * acc + (c.toNat - 48)) 0

/-! ## The regex `TFTSet(\d+)` from `detect_current_set` -/

/-- Attempt to match `TFTSet(\d+)` anchored at the head of the list: the
literal `TFTSet` followed by a maximal nonempty run of digits.  (The greedy
`\d+` never backtracks usefully here because the pattern ends after it.)
Returns the integer value of the captured digits. -/
def matchSetAt (s : List Char) : Option Nat :=
  match s with
  | 'T' :: 'F' :: 'T' :: 'S' :: 'e' :: 't' :: rest =>
    if (rest.takeWhile Char.isDigit).isEmpty then none
    else some (digitsVal (rest.takeWhile Char.isDigit))
  | _ => none

/-- `re.search(r"TFTSet(\d+)", s)`: leftmost position at which the pattern
matches, returning the integer value of the captured digit group. -/
def findTFTSet : List Char → Option Nat
  | [] => none
  | c :: rest =>
    match matchSetAt (c :: rest) with
    | some n => some n
    | none => findTFTSet rest

/-! ## The regex `(TFT\d+_\w+)` used for short-id extraction in `main` -/

/-- Attempt to match `TFT\d+_\w+` anchored at the head of the list: literal
`TFT`, a maximal nonempty digit run, a literal underscore, then a maximal
nonempty run of word characters.  Backtracking `\d+` cannot produce any other
match at this position: every shorter digit run ends before a digit, not
before the required underscore. -/
def matchShortAt (s : List Char) : Option (List Char) :=
  match s with
  | 'T' :: 'F' :: 'T' :: rest =>
    if (rest.takeWhile Char.isDigit).isEmpty then none
    else
      match rest.dropWhile Char.isDigit with
      | '_' :: rest3 =>
        if (rest3.takeWhile isWordChar).isEmpty then none
        else some ('T' :: 'F' :: 'T' ::
          (rest.takeWhile Char.isDigit ++ '_' :: rest3.takeWhile isWordChar))
      | _ => none
  | _ => none

/-- `re.search(r"(TFT\d+_\w+)", s)`: the match at the leftmost position where
the pattern matches, if any. -/
def findShort : List Char → Option (List Char)
  | [] => none
  | c :: rest =>
    match matchShortAt (c :: rest) with
    | some m => some m
    | none => findShort rest

/-- Python `champ_id.split("/")[-1]`: the suffix after the last `/`
(the whole string when no `/` occurs, empty when the string ends in `/`). -/
def lastSegment (s : List Char) : List Char :=
  (s.reverse.takeWhile (fun c => decide (c ≠ '/'))).reverse

/-- Short-id normalization from `main`:
`m = re.search(r"(TFT\d+_\w+)", champ_id); short_id = m.group(1) if m else champ_id.split("/")[-1]`. -/
def short_id_of (champ_id : String) : String :=
  match findShort champ_id.data with
  | some m => String.mk m
  | none => String.mk (lastSegment champ_id.data)

/-! ## Data model -/

/-- The `image` sub-object of a raw champion record (only the `full` field is
read by the script). -/
structure ChampImage where
  full : Option String
deriving DecidableEq

/-- A trait entry of a raw champion record: the script reads
`t.get("name", t.get("id", ""))`. -/
structure ChampTrait where
  name : Option String
  id : Option String
deriving DecidableEq

/-- A raw champion record as parsed from `tft-champion.json`; every field the
script reads is optional because the script supplies a default for each
(`.get` with a default). -/
structure ChampData where
  name : Option String
  tier : Option Nat
  traits : Option (List ChampTrait)
  image : Option ChampImage
deriving DecidableEq

/-- A raw record with every optional field absent (all defaults kick in). -/
def emptyChampData : ChampData := ⟨none, none, none, none⟩

/-- An output champion entry of `data/champions.json`. -/
structure ChampionRecord where
  id : String
  name : String
  cost : Nat
  traits : List String
  icon : String
deriving DecidableEq

/-- The output catalog written to `data/champions.json`. -/
structure Catalog where
  version : String
  set : Int
  champions : List ChampionRecord
deriving DecidableEq

/-- Trait display-name extraction: `t.get("name", t.get("id", ""))`. -/
def trait_name (t : ChampTrait) : String := t.name.getD (t.id.getD "")

/-- The record construction in the body of the `main` loop. -/
def champion_record_of (champ_id : String) (champ_data : ChampData) : ChampionRecord :=
  { id := short_id_of champ_id
  , name := champ_data.name.getD champ_id
  , cost := champ_data.tier.getD 1
  , traits := (champ_data.traits.getD []).map trait_name
  , icon := short_id_of champ_id ++ ".png" }

/-! ## The set filter of `main` -/

/-- The filter in the `main` loop: a record is kept unless both
`set_prefix not in champ_id` and `short_prefix not in champ_id`, with
`set_prefix = f"TFTSet{target_set}"` and `short_prefix = f"TFT{target_set}_"`. -/
def includeChamp (target_set : Int) (champ_id : String) : Bool :=
  strContains champ_id ("TFTSet" ++ toString target_set)
    || strContains champ_id ("TFT" ++ toString target_set ++ "_")

/-- `detect_current_set` loop body: `if m: max_set = max(max_set, int(m.group(1)))`. -/
def detectStep (max_set : Nat) (p : String × ChampData) : Nat :=
  match findTFTSet p.1.data with
  | some n => max max_set n
  | none => max_set

/-- `detect_current_set(raw_champions)`: the highest `TFTSet(\d+)` value found
across the raw identifiers, starting from 0. -/
def detect_current_set (raw_champions : List (String × ChampData)) : Nat :=
  raw_champions.foldl detectStep 0

/-! ## Sorting (`sorted(raw_champions.items())`) -/

/-- Order on dict items: compare by key (Python tuple comparison reaches the
value only on equal keys, which cannot happen for dict items). -/
def keyLe (a b : String × ChampData) : Prop := strLe a.1 b.1 = true

instance : DecidableRel keyLe := fun _ _ => inferInstanceAs (Decidable (_ = true))

/-- `sorted(raw_champions.items())`. -/
def sortPairs (raw : List (String × ChampData)) : List (String × ChampData) :=
  List.insertionSort keyLe raw

/-! ## The meta placeholder script (`scripts/update-meta.py`) -/

/-- A filesystem: a partial map from path to file content. -/
abbrev FS := String → Option String

/-- `os.path.join("data", "meta", "comps.json")`. -/
def META_FILE : String := "data/meta/comps.json"

/-- The bytes `json.dump(meta, f, indent=2)` writes for the fixed dict
`"version": "0.1.0", "patch": "placeholder", "comps": []`. -/
def meta_content : String :=
  "\x7b\n  \"version\": \"0.1.0\",\n  \"patch\": \"placeholder\",\n  \"comps\": []\n\x7d"

/-- `main` of `update-meta.py`: unconditionally (over)write the fixed stub at
the fixed path (`os.makedirs` only affects directories, not modelled). -/
def update_meta_main (fs : FS) : FS :=
  fun p => if p = META_FILE then some meta_content else fs p

/-! ## Errors, network oracle, and the fetch helpers of `fetch-templates.py` -/

/-- Uncaught Python exceptions the script can die with. -/
inductive PyErr where
  | valueError
  | indexError
  | netError
deriving DecidableEq

instance {ε α : Type _} [DecidableEq ε] [DecidableEq α] : DecidableEq (Except ε α) := fun x y =>
  match x, y with
  | .error a, .error b =>
    if h : a = b then .isTrue (congrArg Except.error h)
    else .isFalse (fun hc => h (Except.error.inj hc))
  | .ok a, .ok b =>
    if h : a = b then .isTrue (congrArg Except.ok h)
    else .isFalse (fun hc => h (Except.ok.inj hc))
  | .error _, .ok _ => .isFalse (fun hc => Except.noConfusion hc)
  | .ok _, .error _ => .isFalse (fun hc => Except.noConfusion hc)

/-- The parsed body of `tft-champion.json`: `data.get("data", {})` reads an
optional `data` field mapping raw identifiers to champion records. -/
structure TftResponse where
  data : Option (List (String × ChampData))

/-- The network, as an oracle: the result of fetching-and-parsing
`versions.json`, the result of fetching-and-parsing `tft-champion.json` for a
given version, and the result of `urlretrieve` for a given icon URL
(`none` = the fetch raised). -/
structure Network where
  versions : Except PyErr (List String)
  champResp : String → Except PyErr TftResponse
  icon : String → Option String

def DATA_DRAGON_BASE : String := "https://ddragon.leagueoflegends.com"

def TEMPLATES_DIR : String := "data/templates/champions"

def CHAMPIONS_JSON : String := "data/champions.json"

/-- `get_latest_version`: fetch `versions.json` and return `versions[0]`.
No handler: a failed fetch/parse propagates; an empty array raises IndexError. -/
def get_latest_version (net : Network) : Except PyErr String :=
  match net.versions with
  | .error e => .error e
  | .ok [] => .error PyErr.indexError
  | .ok (v :: _) => .ok v

/-- `fetch_tft_champions`: fetch `tft-champion.json` and return
`data.get("data", {})`.  There is no `try`/`except` in the source: a network
or parse failure propagates unchanged. -/
def fetch_tft_champions (net : Network) (version : String) :
    Except PyErr (List (String × ChampData)) :=
  match net.champResp version with
  | .error e => .error e
  | .ok resp => .ok (resp.data.getD [])

/-- `download_icon(url, path)`: if the destination exists, return True without
touching the network; otherwise attempt the fetch, writing on success and
returning False on failure (the exception is caught and only warned about).
`os.makedirs` affects directories only and is not modelled. -/
def download_icon (net : Network) (url path : String) (fs : FS) : Bool × FS :=
  match fs path with
  | some _ => (true, fs)
  | none =>
    match net.icon url with
    | some content => (true, fun p => if p = path then some content else fs p)
    | none => (false, fs)

/-- `shutil.rmtree(TEMPLATES_DIR)` followed by `os.makedirs`: every file under
the directory is removed (the `os.path.exists` guard and directory recreation
only affect directories, which the file map does not track). -/
def rmtree (dir : String) (fs : FS) : FS :=
  fun p => if (dir ++ "/").data.isPrefixOf p.data then none else fs p

/-! ## Command-line parsing (`--set`) -/

/-- Is this character run a valid Python integer digit part
(`digit (["_"] digit)*`: nonempty, underscores only between digits)?
This is the continuation after the first digit. -/
def pyDigitsRest : List Char → Bool
  | [] => true
  | '_' :: rest =>
    match rest with
    | c :: rest2 => c.isDigit && pyDigitsRest rest2
    | [] => false
  | c :: rest => c.isDigit && pyDigitsRest rest

/-- Valid Python integer digit part: at least one digit, underscores only
strictly between digits. -/
def pyDigitsOk : List Char → Bool
  | [] => false
  | c :: rest => c.isDigit && pyDigitsRest rest

/-- Python `int(s)` on a string: strip surrounding whitespace, an optional
sign, then a digit part with optional single underscore separators;
anything else raises ValueError (`none`). -/
def pyInt (s : String) : Option Int :=
  match (s.data.dropWhile Char.isWhitespace).reverse.dropWhile Char.isWhitespace |>.reverse with
  | '-' :: rest =>
    if pyDigitsOk rest then some (-(digitsVal (rest.filter (fun c => decide (c ≠ '_'))) : Int))
    else none
  | '+' :: rest =>
    if pyDigitsOk rest then some ((digitsVal (rest.filter (fun c => decide (c ≠ '_'))) : Int))
    else none
  | rest =>
    if pyDigitsOk rest then some ((digitsVal (rest.filter (fun c => decide (c ≠ '_'))) : Int))
    else none

/-- The argument parsing at the top of `main`:
`if "--set" in sys.argv: idx = sys.argv.index("--set");
 if idx + 1 < len(sys.argv): target_set = int(sys.argv[idx + 1])`.
`int` raising ValueError is an uncaught error; a trailing `--set` leaves
`target_set = None`. -/
def parse_set_arg (argv : List String) : Except PyErr (Option Int) :=
  if "--set" ∈ argv then
    if argv.indexOf "--set" + 1 < argv.length then
      match pyInt (argv.getD (argv.indexOf "--set" + 1) "") with
      | some n => .ok (some n)
      | none => .error PyErr.valueError
    else .ok none
  else .ok none

/-! ## The main loop and pipeline of `fetch-templates.py` -/

/-- One run's accumulated effects: the catalog written to `CHAMPIONS_JSON`
(the byte-level JSON rendering of the catalog is not modelled; the structured
value is the file's content), the `downloaded` counter, and the final
filesystem. -/
structure RunResult where
  catalog : Catalog
  downloaded : Nat
  fs : FS

/-- The `for champ_id, champ_data in sorted(raw_champions.items())` loop:
skip records matching neither marker, append the normalized record, and
attempt the icon download (counting successes). -/
def champLoop (net : Network) (version : String) (target_set : Int) :
    List (String × ChampData) → FS → List ChampionRecord × Nat × FS
  | [], fs => ([], 0, fs)
  | (champ_id, champ_data) :: rest, fs =>
    if includeChamp target_set champ_id then
      let icon_dd_file := (champ_data.image.bind ChampImage.full).getD (champ_id ++ ".png")
      let url := DATA_DRAGON_BASE ++ "/cdn/" ++ version ++ "/img/tft-champion/" ++ icon_dd_file
      let path := TEMPLATES_DIR ++ "/" ++ short_id_of champ_id ++ ".png"
      let dres := download_icon net url path fs
      let next := champLoop net version target_set rest dres.2
      (champion_record_of champ_id champ_data :: next.1,
       (if dres.1 then 1 else 0) + next.2.1, next.2.2)
    else champLoop net version target_set rest fs

/-- The record part of the loop, in isolation (no filesystem or network):
used to state what the catalog contains. -/
def champion_list (target_set : Int) : List (String × ChampData) → List ChampionRecord
  | [] => []
  | (champ_id, champ_data) :: rest =>
    if includeChamp target_set champ_id then
      champion_record_of champ_id champ_data :: champion_list target_set rest
    else champion_list target_set rest

/-- `if target_set is None: target_set = detect_current_set(raw_champions)`. -/
def targetOf (targetOpt : Option Int) (raw : List (String × ChampData)) : Int :=
  match targetOpt with
  | some t => t
  | none => (detect_current_set raw : Int)

/-- `main()` of `fetch-templates.py`: parse `--set`, resolve the version,
fetch the champion data, pick the target set, clean the icon directory, run
the filtered loop, and record the catalog (written to `CHAMPIONS_JSON`). -/
def main_run (argv : List String) (net : Network) (fs0 : FS) : Except PyErr RunResult :=
  match parse_set_arg argv with
  | .error e => .error e
  | .ok targetOpt =>
    match get_latest_version net with
    | .error e => .error e
    | .ok version =>
      match fetch_tft_champions net version with
      | .error e => .error e
      | .ok raw_champions =>
        let target_set := targetOf targetOpt raw_champions
        let fs1 := rmtree TEMPLATES_DIR fs0
        let res := champLoop net version target_set (sortPairs raw_champions) fs1
        .ok { catalog := { version := version, set := target_set, champions := res.1 }
            , downloaded := res.2.1
            , fs := res.2.2 }

/-! ## Spec-side definitions used to state the claims -/

/-- Claim-side marker containment for a set number `n` (the spec's words):
the identifier contains the long form `TFTSet<n>` or the short form `TFT<n>_`
as a substring. -/
def hasSetMarker (n : Nat) (champ_id : String) : Bool :=
  strContains champ_id ("TFTSet" ++ toString n)
    || strContains champ_id ("TFT" ++ toString n ++ "_")

/-- Claim-side pattern for C4: the spec's literal words ask for `Set` followed
by digits (without requiring the `TFT` that the code's regex demands),
anchored at the head here. -/
def matchSpecSetAt (s : List Char) : Option Nat :=
  match s with
  | 'S' :: 'e' :: 't' :: rest =>
    if (rest.takeWhile Char.isDigit).isEmpty then none
    else some (digitsVal (rest.takeWhile Char.isDigit))
  | _ => none

/-- Claim-side search for C4: leftmost occurrence of `Set` followed by digits. -/
def findSpecSet : List Char → Option Nat
  | [] => none
  | c :: rest =>
    match matchSpecSetAt (c :: rest) with
    | some n => some n
    | none => findSpecSet rest

/-- Shape of a string matching the short-id pattern `TFT\d+_\w+`:
literal `TFT`, a nonempty digit run, an underscore, a nonempty word-char run. -/
def ShortShape (m : List Char) : Prop :=
  ∃ ds ws, m = 'T' :: 'F' :: 'T' :: (ds ++ '_' :: ws)
    ∧ ds ≠ [] ∧ (∀ c ∈ ds, c.isDigit = true)
    ∧ ws ≠ [] ∧ (∀ c ∈ ws, isWordChar c = true)

/-! ## Fixtures for concrete counterexamples and witnesses -/

def emptyFS : FS := fun _ => none

/-- Network on which the champion-data fetch fails. -/
def net_c1 : Network :=
  { versions := .ok ["v1"]
  , champResp := fun _ => .error PyErr.netError
  , icon := fun _ => none }

/-- Network on which the champion-data fetch succeeds with no `data` field. -/
def net_c1ok : Network :=
  { versions := .ok ["v1"]
  , champResp := fun _ => .ok ⟨none⟩
  , icon := fun _ => none }

def sentinel_path : String := "data/templates/champions/TFT15_Ahri.png"

/-- Filesystem pre-seeded with sentinel content at an icon destination. -/
def fs_c3 : FS := fun p => if p = sentinel_path then some "SENTINEL" else none

/-- Network serving one set-15 champion and succeeding icon downloads. -/
def net_c3 : Network :=
  { versions := .ok ["v1"]
  , champResp := fun _ => .ok ⟨some [("TFTSet15_TFT15_Ahri", emptyChampData)]⟩
  , icon := fun _ => some "FRESHDOWNLOAD" }

/-- Network whose champion data holds two distinct raw identifiers that
normalize to the same short identifier (both pass the set-15 filter). -/
def net_c5 : Network :=
  { versions := .ok ["v1"]
  , champResp := fun _ => .ok ⟨some [("TFTSet15_TFT15_Ahri", emptyChampData),
      ("X/TFTSet15_TFT15_Ahri", emptyChampData)]⟩
  , icon := fun _ => none }

/-- Network for the C5 witness: one champion, so normalization is trivially
injective on the included records. -/
def net_c5w : Network :=
  { versions := .ok ["v1"]
  , champResp := fun _ => .ok ⟨some [("TFTSet15_TFT15_Ahri", emptyChampData)]⟩
  , icon := fun _ => none }

/-- The run result of the C5 witness network. -/
def run_c5w : RunResult :=
  match main_run [] net_c5w emptyFS with
  | .ok r => r
  | .error _ => ⟨⟨"", 0, []⟩, 0, emptyFS⟩

/-- Network identical to `net_c3` on the data endpoints but with every icon
download failing. -/
def net_c8fail : Network :=
  { versions := .ok ["v1"]
  , champResp := fun _ => .ok ⟨some [("TFTSet15_TFT15_Ahri", emptyChampData)]⟩
  , icon := fun _ => none }

/-! ## Order properties of the string key comparison -/

theorem listCharLe_total (x y : List Char) : listCharLe x y = true ∨ listCharLe y x = true := by
  induction x generalizing y with
  | nil => left; rfl
  | cons a as ih =>
    cases y with
    | nil => right; rfl
    | cons b bs =>
      by_cases hab : a = b
      · subst hab
        rcases ih bs with h | h
        · left; simpa [listCharLe] using h
        · right; simpa [listCharLe] using h
      · rcases lt_or_gt_of_ne hab with h | h
        · left; simp [listCharLe, hab, h]
        · right
          have hba : ¬b = a := fun hc => hab hc.symm
          simp [listCharLe, hba, h]

theorem listCharLe_trans (x y z : List Char) (h1 : listCharLe x y = true)
    (h2 : listCharLe y z = true) : listCharLe x z = true := by
  induction x generalizing y z with
  | nil => rfl
  | cons a as ih =>
    cases y with
    | nil => simp [listCharLe] at h1
    | cons b bs =>
      cases z with
      | nil => simp [listCharLe] at h2
      | cons c cs =>
        by_cases hab : a = b <;> by_cases hbc : b = c
        · subst hab; subst hbc
          simp only [listCharLe, if_pos rfl] at h1 h2 ⊢
          exact ih bs cs h1 h2
        · subst hab
          simp only [listCharLe, if_pos rfl] at h1
          simpa [listCharLe, hbc] using h2
        · subst hbc
          simp only [listCharLe, if_pos rfl] at h2
          simpa [listCharLe, hab] using h1
        · simp only [listCharLe, if_neg hab, decide_eq_true_eq] at h1
          simp only [listCharLe, if_neg hbc, decide_eq_true_eq] at h2
          have hac : a < c := lt_trans h1 h2
          have hne : a ≠ c := ne_of_lt hac
          simp [listCharLe, hne, hac]

instance : IsTotal (String × ChampData) keyLe := ⟨fun a b => listCharLe_total a.1.data b.1.data⟩

instance : IsTrans (String × ChampData) keyLe :=
  ⟨fun a b c h1 h2 => listCharLe_trans a.1.data b.1.data c.1.data h1 h2⟩

/-! ## Helper lemmas -/

theorem includeChamp_natCast (n : Nat) (cid : String) :
    includeChamp (n : Int) cid = hasSetMarker n cid := rfl

theorem champion_list_eq_filter_map (target_set : Int) (l : List (String × ChampData)) :
    champion_list target_set l
      = (l.filter (fun p => includeChamp target_set p.1)).map
          (fun p => champion_record_of p.1 p.2) := by
  induction l with
  | nil => rfl
  | cons p rest ih =>
    obtain ⟨cid, d⟩ := p
    by_cases h : includeChamp target_set cid = true <;>
      simp [champion_list, List.filter_cons, h, ih]

theorem mem_champion_list (target_set : Int) (l : List (String × ChampData))
    (r : ChampionRecord) (h : r ∈ champion_list target_set l) :
    ∃ p ∈ l, includeChamp target_set p.1 = true ∧ r = champion_record_of p.1 p.2 := by
  rw [champion_list_eq_filter_map] at h
  obtain ⟨p, hp, hr⟩ := List.mem_map.mp h
  obtain ⟨hmem, hinc⟩ := List.mem_filter.mp hp
  exact ⟨p, hmem, hinc, hr.symm⟩

theorem champLoop_fst (net : Network) (version : String) (target_set : Int)
    (items : List (String × ChampData)) :
    ∀ fs : FS, (champLoop net version target_set items fs).1 = champion_list target_set items := by
  induction items with
  | nil => intro fs; rfl
  | cons p rest ih =>
    intro fs
    obtain ⟨champ_id, champ_data⟩ := p
    by_cases h : includeChamp target_set champ_id = true <;>
      simp [champLoop, champion_list, h, ih]

theorem main_run_ok_eq (argv : List String) (net : Network) (fs0 : FS)
    (tOpt : Option Int) (v : String) (raw : List (String × ChampData))
    (hargv : parse_set_arg argv = .ok tOpt)
    (hver : get_latest_version net = .ok v)
    (hfetch : fetch_tft_champions net v = .ok raw) :
    main_run argv net fs0 = .ok
      { catalog := { version := v, set := targetOf tOpt raw
                   , champions := champion_list (targetOf tOpt raw) (sortPairs raw) }
      , downloaded :=
          (champLoop net v (targetOf tOpt raw) (sortPairs raw) (rmtree TEMPLATES_DIR fs0)).2.1
      , fs :=
          (champLoop net v (targetOf tOpt raw) (sortPairs raw) (rmtree TEMPLATES_DIR fs0)).2.2 } := by
  simp only [main_run, hargv, hver, hfetch]
  rw [champLoop_fst]

theorem foldl_detectStep_le_acc (l : List (String × ChampData)) :
    ∀ acc : Nat, acc ≤ l.foldl detectStep acc := by
  induction l with
  | nil => intro acc; exact le_refl acc
  | cons p rest ih =>
    intro acc
    simp only [List.foldl_cons]
    refine le_trans ?_ (ih (detectStep acc p))
    unfold detectStep
    cases findTFTSet p.1.data
    · exact le_refl acc
    · exact le_max_left _ _

theorem foldl_detectStep_bound (l : List (String × ChampData)) :
    ∀ acc, ∀ p ∈ l, ∀ n, findTFTSet p.1.data = some n → n ≤ l.foldl detectStep acc := by
  induction l with
  | nil => intro acc p hp; exact absurd hp (List.not_mem_nil p)
  | cons q rest ih =>
    intro acc p hp n hn
    simp only [List.foldl_cons]
    rcases List.mem_cons.mp hp with heq | hp2
    · subst heq
      refine le_trans ?_ (foldl_detectStep_le_acc rest (detectStep acc p))
      unfold detectStep
      rw [hn]
      exact le_max_right _ _
    · exact ih (detectStep acc q) p hp2 n hn

theorem foldl_detectStep_attained (l : List (String × ChampData)) :
    ∀ acc, l.foldl detectStep acc = acc
      ∨ ∃ p ∈ l, findTFTSet p.1.data = some (l.foldl detectStep acc) := by
  induction l with
  | nil => intro acc; left; rfl
  | cons q rest ih =>
    intro acc
    simp only [List.foldl_cons]
    rcases ih (detectStep acc q) with h | hex
    · rw [h]
      cases hq : findTFTSet q.1.data with
      | none => left; simp [detectStep, hq]
      | some k =>
        rcases max_cases acc k with ⟨he, _⟩ | ⟨he, _⟩
        · left; simp [detectStep, hq, he]
        · right
          refine ⟨q, List.mem_cons_self q rest, ?_⟩
          simp [detectStep, hq, he]
    · obtain ⟨p, hp, hf⟩ := hex
      right
      exact ⟨p, List.mem_cons_of_mem q hp, hf⟩

theorem eq_of_fst_eq_of_nodup_keys {l : List (String × ChampData)}
    (h : (l.map Prod.fst).Nodup) :
    ∀ p ∈ l, ∀ q ∈ l, p.1 = q.1 → p = q := by
  induction l with
  | nil => intro p hp; exact absurd hp (List.not_mem_nil p)
  | cons a t ih =>
    intro p hp q hq hpq
    simp only [List.map_cons, List.nodup_cons] at h
    rcases List.mem_cons.mp hp with hpa | hpt <;> rcases List.mem_cons.mp hq with hqa | hqt
    · rw [hpa, hqa]
    · have hq1 : q.1 ∈ List.map Prod.fst t := List.mem_map_of_mem Prod.fst hqt
      have ha1 : a.1 = q.1 := by rw [← hpa]; exact hpq
      rw [← ha1] at hq1
      exact absurd hq1 h.1
    · have hp1 : p.1 ∈ List.map Prod.fst t := List.mem_map_of_mem Prod.fst hpt
      have ha1 : p.1 = a.1 := by rw [hpq, hqa]
      rw [ha1] at hp1
      exact absurd hp1 h.1
    · exact ih h.2 p hpt q hqt hpq

/-! ## C9: the meta placeholder writer -/

/-- C9: every run of `update-meta.py` writes the same fixed JSON stub to the
fixed path, unconditionally overwriting any existing content, so consecutive
runs produce byte-identical output and the result does not depend on the
prior filesystem. -/
theorem c9_meta_fixed (fs gs : FS) :
    update_meta_main fs META_FILE = some meta_content
    ∧ update_meta_main (update_meta_main fs) META_FILE = update_meta_main fs META_FILE
    ∧ update_meta_main fs META_FILE = update_meta_main gs META_FILE := by
  simp [update_meta_main]

/-! ## C2: the set filter -/

/-- C2 counterexample: the raw identifier `TFTSet15_TFT15_Ahri` carries the
set marker for set 15, yet for target set 1 ≠ 15 the filter still includes it,
because the filter tests substring containment and `TFTSet1` occurs inside
`TFTSet15`.  This refutes the claim's exclusion half. -/
theorem c2_counterexample :
    hasSetMarker 15 "TFTSet15_TFT15_Ahri" = true
    ∧ (1 : Nat) ≠ 15
    ∧ includeChamp ((1 : Nat) : Int) "TFTSet15_TFT15_Ahri" = true := by decide

/-- C2 (amended): an identifier carrying a set marker for `n` is included for
target `n`; and for any target `m`, the record is excluded exactly when
neither marker string of `m` occurs as a substring of the identifier (mere
inequality `m ≠ n` does not suffice: `m`'s marker can occur inside `n`'s, as
in `TFTSet1` inside `TFTSet15`). -/
theorem c2_filter_markers (n m : Nat) (champ_id : String)
    (h : hasSetMarker n champ_id = true) :
    includeChamp (n : Int) champ_id = true
    ∧ (includeChamp (m : Int) champ_id = false ↔ hasSetMarker m champ_id = false)
    ∧ (∀ d : ChampData,
        champion_list (n : Int) [(champ_id, d)] = [champion_record_of champ_id d])
    ∧ (∀ d : ChampData, hasSetMarker m champ_id = false →
        champion_list (m : Int) [(champ_id, d)] = []) := by
  have hn : includeChamp (n : Int) champ_id = true := by
    rw [includeChamp_natCast]; exact h
  refine ⟨hn, by rw [includeChamp_natCast], ?_, ?_⟩
  · intro d
    simp [champion_list, hn]
  · intro d hm
    have : includeChamp (m : Int) champ_id = false := by
      rw [includeChamp_natCast]; exact hm
    simp [champion_list, this]

/-- Witness for C2 at concrete inputs. -/
theorem c2_filter_markers_witness :
    champion_list ((15 : Nat) : Int) [("TFTSet15_TFT15_Ahri", emptyChampData)]
      = [champion_record_of "TFTSet15_TFT15_Ahri" emptyChampData] :=
  (c2_filter_markers 15 9 "TFTSet15_TFT15_Ahri" (by decide)).2.2.1 emptyChampData

/-! ## C4: set auto-detection -/

/-- C4 counterexample: the identifier `XSet7` matches the claim's pattern
(`Set` followed by digits, value 7), so the claim demands a detected target of
7; but the code's regex requires the `TFTSet` literal and detects 0. -/
theorem c4_counterexample :
    findSpecSet "XSet7".data = some 7
    ∧ detect_current_set [("XSet7", emptyChampData)] = 0 := by decide

/-- C4 (amended): the auto-detected target set is the maximum over all raw
identifiers of the value captured by the first occurrence of `TFTSet`
followed by digits (not bare `Set` followed by digits): it bounds every such
value from above, it is 0 when no identifier matches, and it is attained by
some identifier whenever it is nonzero. -/
theorem c4_detect_max (raw : List (String × ChampData)) :
    (∀ p ∈ raw, ∀ n, findTFTSet p.1.data = some n → n ≤ detect_current_set raw)
    ∧ ((∀ p ∈ raw, findTFTSet p.1.data = none) → detect_current_set raw = 0)
    ∧ (detect_current_set raw = 0
        ∨ ∃ p ∈ raw, findTFTSet p.1.data = some (detect_current_set raw)) := by
  refine ⟨fun p hp n hn => foldl_detectStep_bound raw 0 p hp n hn, ?_,
    foldl_detectStep_attained raw 0⟩
  intro hall
  rcases foldl_detectStep_attained raw 0 with h | ⟨p, hp, hf⟩
  · exact h
  · rw [hall p hp] at hf
    simp at hf

/-- Witness for C4 at a concrete input. -/
theorem c4_detect_max_witness :
    (15 : Nat) ≤ detect_current_set [("TFTSet15_TFT15_Ahri", emptyChampData)] :=
  (c4_detect_max _).1 ("TFTSet15_TFT15_Ahri", emptyChampData) (by decide) 15 (by decide)

/-! ## C1: champion-data fetch failure -/

/-- C1 counterexample: with the champion-data endpoint failing (and the
version endpoint fine), `fetch_tft_champions` does not return an empty
mapping — there is no handler in the source — and the pipeline aborts with
the propagated error instead of continuing to an empty catalog. -/
theorem c1_counterexample :
    fetch_tft_champions net_c1 "v1" = .error PyErr.netError
    ∧ main_run [] net_c1 emptyFS = .error PyErr.netError := by
  exact ⟨rfl, rfl⟩

/-- C1 (amended): a network or parse failure of the champion-data endpoint
propagates out of `fetch_tft_champions` and aborts the pipeline with that
error; only a successful response missing the `data` field yields an empty
mapping, in which case the pipeline does run to completion and the catalog's
champion list is empty. -/
theorem c1_fetch_failure (argv : List String) (net : Network) (fs : FS)
    (tOpt : Option Int) (v : String)
    (hargv : parse_set_arg argv = .ok tOpt)
    (hver : get_latest_version net = .ok v) :
    (∀ e, net.champResp v = .error e →
      fetch_tft_champions net v = .error e ∧ main_run argv net fs = .error e)
    ∧ (net.champResp v = .ok ⟨none⟩ →
      fetch_tft_champions net v = .ok []
      ∧ ∃ r, main_run argv net fs = .ok r ∧ r.catalog.champions = []) := by
  constructor
  · intro e he
    have hf : fetch_tft_champions net v = .error e := by
      simp [fetch_tft_champions, he]
    refine ⟨hf, ?_⟩
    simp only [main_run, hargv, hver, hf]
  · intro he
    have hf : fetch_tft_champions net v = .ok [] := by
      simp [fetch_tft_champions, he]
    exact ⟨hf, _, main_run_ok_eq argv net fs tOpt v [] hargv hver hf, rfl⟩

/-- Witness for C1 at a concrete network. -/
theorem c1_fetch_failure_witness :
    fetch_tft_champions net_c1ok "v1" = .ok []
    ∧ ∃ r, main_run [] net_c1ok emptyFS = .ok r ∧ r.catalog.champions = [] :=
  (c1_fetch_failure [] net_c1ok emptyFS none "v1" rfl rfl).2 rfl

/-! ## C10: the `--set` flag -/

theorem indexOf_append_cons (a : String) (pre rest : List String) (h : a ∉ pre) :
    (pre ++ a :: rest).indexOf a = pre.length := by
  induction pre with
  | nil => simp [List.indexOf, List.findIdx_cons]
  | cons b t ih =>
    have hb : a ∉ t := fun hm => h (List.mem_cons_of_mem b hm)
    have hba : (b == a) = false :=
      beq_eq_false_iff_ne.mpr (fun he => h (he ▸ List.mem_cons_self b t))
    have ih2 := ih hb
    simp only [List.indexOf] at ih2 ⊢
    simp [List.findIdx_cons, hba, ih2]

theorem parse_set_arg_absent (argv : List String) (h : "--set" ∉ argv) :
    parse_set_arg argv = .ok none := by
  simp [parse_set_arg, h]

theorem parse_set_arg_trailing (pre : List String) (h : "--set" ∉ pre) :
    parse_set_arg (pre ++ ["--set"]) = .ok none := by
  have hmem : "--set" ∈ pre ++ ["--set"] := List.mem_append_right pre (by simp)
  have hidx : (pre ++ ["--set"]).indexOf "--set" = pre.length :=
    indexOf_append_cons "--set" pre [] h
  have hlen : (pre ++ ["--set"]).length = pre.length + 1 := by simp
  simp [parse_set_arg, hmem, hidx, hlen]

theorem parse_set_arg_badval (pre : List String) (v : String) (h : "--set" ∉ pre)
    (hbad : pyInt v = none) :
    parse_set_arg (pre ++ ["--set", v]) = .error PyErr.valueError := by
  have hmem : "--set" ∈ pre ++ ["--set", v] := List.mem_append_right pre (by simp)
  have hidx : (pre ++ ["--set", v]).indexOf "--set" = pre.length :=
    indexOf_append_cons "--set" pre [v] h
  have hlen : (pre ++ ["--set", v]).length = pre.length + 2 := by simp
  have hget : (pre ++ ["--set", v]).getD (pre.length + 1) "" = v := by
    have h1 : (pre ++ ["--set", v])[pre.length + 1]? = some v := by
      rw [List.getElem?_append_right (by omega)]
      simp
    rw [List.getD_eq_getElem?_getD, h1]
    rfl
  have hcond : pre.length + 1 < (pre ++ ["--set", v]).length := by simp
  unfold parse_set_arg
  rw [if_pos hmem, hidx, if_pos hcond, hget, hbad]

/-- C10: a trailing `--set` with no value is silently ignored — the run is
identical to one without the flag (so the target set is auto-detected) —
whereas a `--set` value that `int()` rejects aborts with ValueError for every
network oracle, i.e. before any network access. -/
theorem c10_set_arg (pre : List String) (v : String) (net : Network) (fs : FS)
    (hpre : "--set" ∉ pre) (hbad : pyInt v = none) :
    main_run (pre ++ ["--set"]) net fs = main_run pre net fs
    ∧ main_run (pre ++ ["--set", v]) net fs = .error PyErr.valueError := by
  constructor
  · simp only [main_run, parse_set_arg_trailing pre hpre, parse_set_arg_absent pre hpre]
  · simp only [main_run, parse_set_arg_badval pre v hpre hbad]

/-- Witness for C10 at concrete inputs. -/
theorem c10_set_arg_witness :
    main_run (["prog"] ++ ["--set"]) net_c1 emptyFS = main_run ["prog"] net_c1 emptyFS
    ∧ main_run (["prog"] ++ ["--set", "abc"]) net_c1 emptyFS = .error PyErr.valueError :=
  c10_set_arg ["prog"] "abc" net_c1 emptyFS (by decide) (by decide)

/-! ## C3: pre-existing icon files -/

/-- C3 counterexample: a destination file pre-seeded with sentinel content
before the run is deleted by the directory cleanup and freshly re-fetched:
after the run it holds the newly downloaded bytes, not the sentinel. -/
theorem c3_counterexample :
    fs_c3 sentinel_path = some "SENTINEL"
    ∧ (main_run [] net_c3 fs_c3).map (fun r => r.fs sentinel_path)
        = .ok (some "FRESHDOWNLOAD") := by
  exact ⟨rfl, rfl⟩

/-- C3 (amended): the skip rule holds only within a run — `download_icon`
leaves an already-present destination untouched and consults no network —
but the pipeline first wipes the icon directory (`shutil.rmtree`), so every
file under it that existed before the run is gone at download time. -/
theorem c3_skip_within_run (net : Network) (url path : String) (fs : FS) (c : String)
    (h : fs path = some c) :
    download_icon net url path fs = (true, fs)
    ∧ ∀ q : String, (TEMPLATES_DIR ++ "/").data.isPrefixOf q.data = true →
        rmtree TEMPLATES_DIR fs q = none := by
  constructor
  · simp [download_icon, h]
  · intro q hq
    unfold rmtree
    split
    · rfl
    · next hneg => exact absurd hq hneg

/-- Witness for C3 at concrete inputs. -/
theorem c3_skip_within_run_witness :
    download_icon net_c3 "someurl" sentinel_path fs_c3 = (true, fs_c3)
    ∧ ∀ q : String, (TEMPLATES_DIR ++ "/").data.isPrefixOf q.data = true →
        rmtree TEMPLATES_DIR fs_c3 q = none :=
  c3_skip_within_run net_c3 "someurl" sentinel_path fs_c3 "SENTINEL" rfl

/-! ## C7: deterministic sorted output order -/

/-- C7: the champion list is the in-order image of the included records of
`sorted(raw_champions.items())`: the underlying raw identifiers come out
sorted in Python's string order, and the sorted sequence is a permutation of
the raw input, so a fixed input always yields the same output order. -/
theorem c7_sorted_output (raw : List (String × ChampData)) (target_set : Int) :
    champion_list target_set (sortPairs raw)
      = ((sortPairs raw).filter (fun p => includeChamp target_set p.1)).map
          (fun p => champion_record_of p.1 p.2)
    ∧ List.Sorted (fun s t => strLe s t = true)
        (((sortPairs raw).filter (fun p => includeChamp target_set p.1)).map Prod.fst)
    ∧ List.Perm (sortPairs raw) raw
    ∧ (∀ (argv : List String) (net : Network) (fs : FS) (tOpt : Option Int) (v : String),
        parse_set_arg argv = .ok tOpt → get_latest_version net = .ok v →
        fetch_tft_champions net v = .ok raw →
        (main_run argv net fs).map (fun r => r.catalog.champions)
          = .ok (champion_list (targetOf tOpt raw) (sortPairs raw))) := by
  refine ⟨champion_list_eq_filter_map _ _, ?_, List.perm_insertionSort keyLe raw, ?_⟩
  · have hs : List.Sorted keyLe (sortPairs raw) := List.sorted_insertionSort keyLe raw
    have hf : ((sortPairs raw).filter (fun p => includeChamp target_set p.1)).Pairwise keyLe :=
      hs.filter _
    exact (List.pairwise_map).mpr hf
  · intro argv net fs tOpt v hargv hver hfetch
    rw [main_run_ok_eq argv net fs tOpt v raw hargv hver hfetch]
    rfl

/-- Witness for C7 at a concrete run. -/
theorem c7_sorted_output_witness :
    (main_run [] net_c5 emptyFS).map (fun r => r.catalog.champions)
      = .ok (champion_list
          (targetOf none [("TFTSet15_TFT15_Ahri", emptyChampData),
            ("X/TFTSet15_TFT15_Ahri", emptyChampData)])
          (sortPairs [("TFTSet15_TFT15_Ahri", emptyChampData),
            ("X/TFTSet15_TFT15_Ahri", emptyChampData)])) := by
  have hargv : parse_set_arg [] = Except.ok (none : Option Int) := rfl
  have hver : get_latest_version net_c5 = Except.ok "v1" := rfl
  have hfetch : fetch_tft_champions net_c5 "v1"
      = Except.ok [("TFTSet15_TFT15_Ahri", emptyChampData),
          ("X/TFTSet15_TFT15_Ahri", emptyChampData)] := rfl
  exact (c7_sorted_output [("TFTSet15_TFT15_Ahri", emptyChampData),
      ("X/TFTSet15_TFT15_Ahri", emptyChampData)] 15).2.2.2
    [] net_c5 emptyFS none "v1" hargv hver hfetch

/-! ## C6: short-id extraction and icon filenames -/

theorem matchShortAt_shape (s m : List Char) (h : matchShortAt s = some m) :
    ShortShape m ∧ m <+: s := by
  unfold matchShortAt at h
  split at h
  case h_2 => exact absurd h (by simp)
  case h_1 rest =>
    by_cases hd : (rest.takeWhile Char.isDigit).isEmpty
    · rw [if_pos hd] at h
      exact absurd h (by simp)
    · rw [if_neg hd] at h
      split at h
      all_goals rename_i hsplit
      case neg.h_2 => exact absurd h (by simp)
      case neg.h_1 =>
        rename_i rest3
        rename' hsplit => heq
        by_cases hw : (rest3.takeWhile isWordChar).isEmpty
        · rw [if_pos hw] at h
          exact absurd h (by simp)
        · rw [if_neg hw] at h
          have hm := Option.some.inj h
          have hrest : rest.takeWhile Char.isDigit ++ rest.dropWhile Char.isDigit = rest :=
            List.takeWhile_append_dropWhile _ _
          have hrest3 : rest3.takeWhile isWordChar ++ rest3.dropWhile isWordChar = rest3 :=
            List.takeWhile_append_dropWhile _ _
          constructor
          · refine ⟨rest.takeWhile Char.isDigit, rest3.takeWhile isWordChar, hm.symm,
              ?_, ?_, ?_, ?_⟩
            · intro hnil; rw [hnil] at hd; exact hd rfl
            · exact fun c hc => List.mem_takeWhile_imp hc
            · intro hnil; rw [hnil] at hw; exact hw rfl
            · exact fun c hc => List.mem_takeWhile_imp hc
          · refine ⟨rest3.dropWhile isWordChar, ?_⟩
            rw [← hm]
            simp only [List.cons_append, List.append_assoc, List.cons_append]
            rw [hrest3, ← heq, hrest]

theorem findShort_leftmost (s : List Char) :
    findShort s
      = ((List.range s.length).filterMap (fun i => matchShortAt (s.drop i))).head? := by
  induction s with
  | nil => rfl
  | cons c t ih =>
    cases hm : matchShortAt (c :: t) with
    | some m =>
      simp [findShort, hm, List.range_succ_eq_map, List.filterMap_cons]
    | none =>
      simp only [findShort, hm]
      rw [ih, List.length_cons, List.range_succ_eq_map, List.filterMap_cons]
      simp only [List.drop_zero, hm, List.filterMap_map]
      have hfun : ((fun i => matchShortAt ((c :: t).drop i)) ∘ Nat.succ)
          = (fun i => matchShortAt (t.drop i)) := by
        funext i
        simp [Function.comp, List.drop_succ_cons]
      rw [hfun]

theorem short_id_of_fallback (cid : String) (h : findShort cid.data = none) :
    short_id_of cid = String.mk (lastSegment cid.data) := by
  simp [short_id_of, h]

/-- C6: the short identifier is taken from the leftmost occurrence of the
pattern `TFT<digits>_<word-chars>` in the raw identifier (the match is a
pattern-shaped infix of the identifier); when the pattern does not occur the
short identifier is the last `/`-separated segment; and every record's icon
filename is exactly its identifier followed by `.png`. -/
theorem c6_short_id :
    (∀ s : List Char, findShort s
        = ((List.range s.length).filterMap (fun i => matchShortAt (s.drop i))).head?)
    ∧ (∀ s m : List Char, matchShortAt s = some m → ShortShape m ∧ m <+: s)
    ∧ (∀ cid : String, findShort cid.data = none →
        short_id_of cid = String.mk (lastSegment cid.data))
    ∧ (∀ (target_set : Int) (l : List (String × ChampData)) (r : ChampionRecord),
        r ∈ champion_list target_set l →
        r.icon = r.id ++ ".png" ∧ ∃ p ∈ l, r.id = short_id_of p.1) := by
  refine ⟨findShort_leftmost, matchShortAt_shape, short_id_of_fallback, ?_⟩
  intro target_set l r hr
  obtain ⟨p, hp, _, hrec⟩ := mem_champion_list target_set l r hr
  subst hrec
  exact ⟨rfl, p, hp, rfl⟩

/-- Witness for C6: a concrete leftmost match is pattern-shaped and an infix. -/
theorem c6_short_id_witness :
    ShortShape ("TFT15_Ahri".data) ∧ "TFT15_Ahri".data <+: "TFT15_Ahri".data :=
  c6_short_id.2.1 "TFT15_Ahri".data "TFT15_Ahri".data (by decide)

/-! ## C5: uniqueness of identifiers in one catalog -/

/-- C5 counterexample: two distinct raw identifiers normalize to the same
short id and are both included, so one catalog contains a duplicated id. -/
theorem c5_counterexample :
    (main_run [] net_c5 emptyFS).map (fun r => r.catalog.champions.map ChampionRecord.id)
      = .ok ["TFT15_Ahri", "TFT15_Ahri"]
    ∧ ¬ (["TFT15_Ahri", "TFT15_Ahri"] : List String).Nodup := by
  exact ⟨by decide, by decide⟩

/-- C5 (amended): the raw identifiers underlying the catalog records are
pairwise distinct (dict keys), but the written short identifiers are pairwise
distinct only under the additional assumption that normalization is injective
on the included raw identifiers — distinct raw keys can share the same
`TFT<digits>_<word>` infix and then the catalog repeats an id. -/
theorem c5_unique_ids (argv : List String) (net : Network) (fs : FS) (r : RunResult)
    (tOpt : Option Int) (v : String) (raw : List (String × ChampData))
    (hargv : parse_set_arg argv = .ok tOpt)
    (hver : get_latest_version net = .ok v)
    (hfetch : fetch_tft_champions net v = .ok raw)
    (hrun : main_run argv net fs = .ok r)
    (hnd : (raw.map Prod.fst).Nodup)
    (hinj : ∀ p ∈ raw, ∀ q ∈ raw,
      includeChamp (targetOf tOpt raw) p.1 = true →
      includeChamp (targetOf tOpt raw) q.1 = true →
      short_id_of p.1 = short_id_of q.1 → p.1 = q.1) :
    (r.catalog.champions.map ChampionRecord.id).Nodup := by
  have hmain := main_run_ok_eq argv net fs tOpt v raw hargv hver hfetch
  rw [hrun] at hmain
  have hre := Except.ok.inj hmain
  have hch : r.catalog.champions
      = champion_list (targetOf tOpt raw) (sortPairs raw) := by
    rw [hre]
  rw [hch, champion_list_eq_filter_map, List.map_map]
  have hfeq : (ChampionRecord.id ∘ fun p : String × ChampData => champion_record_of p.1 p.2)
      = fun p : String × ChampData => short_id_of p.1 := rfl
  rw [hfeq]
  have hperm : List.Perm (sortPairs raw) raw := List.perm_insertionSort keyLe raw
  apply List.Nodup.map_on
  · intro x hx y hy hxy
    have hx2 := List.mem_filter.mp hx
    have hy2 := List.mem_filter.mp hy
    have hxr : x ∈ raw := hperm.mem_iff.mp hx2.1
    have hyr : y ∈ raw := hperm.mem_iff.mp hy2.1
    have h1 : x.1 = y.1 :=
      hinj x hxr y hyr (by simpa using hx2.2) (by simpa using hy2.2) hxy
    exact eq_of_fst_eq_of_nodup_keys hnd x hxr y hyr h1
  · have hsn : (sortPairs raw).Nodup := (hperm.nodup_iff).mpr (hnd.of_map _)
    exact hsn.filter _

/-- Witness for C5 at a concrete run. -/
theorem c5_unique_ids_witness :
    ((run_c5w).catalog.champions.map ChampionRecord.id).Nodup :=
  c5_unique_ids [] net_c5w emptyFS run_c5w none "v1"
    [("TFTSet15_TFT15_Ahri", emptyChampData)] rfl rfl rfl rfl (by decide) (by decide)

/-! ## C8: icon download failures are harmless -/

/-- C8: the catalog produced by a run does not depend on the icon oracle (nor
on the starting filesystem): two networks agreeing on the version and
champion-data endpoints yield identical catalogs — download failures neither
abort the run nor change the written file — and every record in an ok run
lists the expected `<id>.png` icon name with no error marker. -/
theorem c8_downloads_harmless (argv : List String) (net net2 : Network)
    (fs fs2 : FS)
    (hv : net.versions = net2.versions)
    (hc : net.champResp = net2.champResp) :
    (main_run argv net fs).map (fun r => r.catalog)
      = (main_run argv net2 fs2).map (fun r => r.catalog)
    ∧ ∀ r, main_run argv net fs = .ok r →
        ∀ c ∈ r.catalog.champions, c.icon = c.id ++ ".png" := by
  have hgv : get_latest_version net2 = get_latest_version net := by
    simp [get_latest_version, hv]
  have hfv : ∀ v, fetch_tft_champions net2 v = fetch_tft_champions net v := by
    intro v
    simp [fetch_tft_champions, hc]
  constructor
  · cases hp : parse_set_arg argv with
    | error e => simp [main_run, hp]
    | ok tOpt =>
      cases hver : get_latest_version net with
      | error e =>
        have hver2 : get_latest_version net2 = .error e := by rw [hgv, hver]
        simp [main_run, hp, hver, hver2]
      | ok v =>
        have hver2 : get_latest_version net2 = .ok v := by rw [hgv, hver]
        cases hfetch : fetch_tft_champions net v with
        | error e =>
          have hfetch2 : fetch_tft_champions net2 v = .error e := by rw [hfv, hfetch]
          simp [main_run, hp, hver, hver2, hfetch, hfetch2]
        | ok raw =>
          have hfetch2 : fetch_tft_champions net2 v = .ok raw := by rw [hfv, hfetch]
          rw [main_run_ok_eq argv net fs tOpt v raw hp hver hfetch,
            main_run_ok_eq argv net2 fs2 tOpt v raw hp hver2 hfetch2]
          rfl
  · intro r hrun c hcmem
    cases hp : parse_set_arg argv with
    | error e => simp [main_run, hp] at hrun
    | ok tOpt =>
      cases hver : get_latest_version net with
      | error e => simp [main_run, hp, hver] at hrun
      | ok v =>
        cases hfetch : fetch_tft_champions net v with
        | error e => simp [main_run, hp, hver, hfetch] at hrun
        | ok raw =>
          have hmain := main_run_ok_eq argv net fs tOpt v raw hp hver hfetch
          rw [hrun] at hmain
          have hre := Except.ok.inj hmain
          have hch : r.catalog.champions
              = champion_list (targetOf tOpt raw) (sortPairs raw) := by rw [hre]
          rw [hch] at hcmem
          obtain ⟨p, _, _, hrec⟩ := mem_champion_list _ _ c hcmem
          subst hrec
          rfl

/-- Witness for C8: all-downloads-fail versus all-downloads-succeed networks
produce identical catalogs. -/
theorem c8_downloads_harmless_witness :
    (main_run [] net_c8fail emptyFS).map (fun r => r.catalog)
      = (main_run [] net_c3 emptyFS).map (fun r => r.catalog)
    ∧ ∀ r, main_run [] net_c8fail emptyFS = .ok r →
        ∀ c ∈ r.catalog.champions, c.icon = c.id ++ ".png" :=
  c8_downloads_harmless [] net_c8fail net_c3 emptyFS emptyFS rfl rfl
